import Mathlib

/-!
# Verification of the lsc ssdp library (UPnPBuffer.cpp / ssdp core)

A shallow embedding of the packet parser (`UPnPBuffer`), the server search
dispatcher (`SSDP::readChannel` and the `post*` emitters), the query client
(`SSDP::searchRequest`), and the interface selection (`SSDP::interfaceAddress`).

C strings are modelled as `List Char` with no interior null byte; a caller
buffer is modelled by its contents (a `List Char` whose length is the
capacity).  Machine `int`/`size_t` arithmetic in the sources never overflows
on the inputs considered (sizes are small and non-negative), so `Nat` is used.
-/

set_option autoImplicit false

namespace Lsc

/-- Model of the C idiom `while (*p == ' ') p++;` — drop leading blanks. -/
def dropSpaces : List Char → List Char
  | [] => []
  | c :: rest => if c = ' ' then dropSpaces rest else c :: rest

/-- Model of `strstr(p, "\r\n")`: split at the first CRLF occurrence,
returning the bytes before it and the bytes after it.  `none` when no
CRLF occurs, as for a null `strstr` result. -/
def splitCRLF : List Char → Option (List Char × List Char)
  | [] => none
  | [_] => none
  | c :: d :: rest =>
    if c = '\r' ∧ d = '\n' then some ([], rest)
    else (splitCRLF (d :: rest)).map (fun p => (c :: p.1, p.2))

/-- A CRLF pair occurs somewhere in the list. -/
def hasCRLF (l : List Char) : Bool := (splitCRLF l).isSome

/-- Contents of a C string stored in a buffer: the bytes before the first
null terminator. -/
def cstr : List Char → List Char
  | [] => []
  | c :: rest => if c = '\x00' then [] else c :: cstr rest

/-- Model of `strlcpy(dst, src, size)` acting on the destination buffer
contents: copy `min (size-1) (strlen src)` bytes, null-terminate (when
`size > 0`), and leave the remainder of the destination untouched. -/
def strlcpyM (dst src : List Char) (size : Nat) : List Char :=
  if size = 0 then dst
  else
    let n := min (size - 1) src.length
    src.take n ++ '\x00' :: dst.drop (n + 1)

theorem dropSpaces_length_le (l : List Char) : (dropSpaces l).length ≤ l.length := by
  induction l with
  | nil => simp [dropSpaces]
  | cons c rest ih =>
    simp only [dropSpaces]
    split
    · exact Nat.le_succ_of_le ih
    · simp

theorem splitCRLF_length : ∀ (l : List Char) (p : List Char × List Char),
    splitCRLF l = some p → p.2.length + 2 ≤ l.length := by
  intro l
  induction l with
  | nil => intro p h; simp [splitCRLF] at h
  | cons c rest ih =>
    intro p h
    match rest with
    | [] => simp [splitCRLF] at h
    | d :: rest' =>
      simp only [splitCRLF] at h
      split at h
      · cases h
        simp
      · simp only [Option.map_eq_some'] at h
        obtain ⟨q, hq, rfl⟩ := h
        have := ih q hq
        simp at this ⊢
        omega

theorem dropSpaces_of_head_ne {c : Char} (rest : List Char) (h : c ≠ ' ') :
    dropSpaces (c :: rest) = c :: rest := by
  simp [dropSpaces, h]

theorem hasCRLF_cons (c : Char) (l : List Char) (h : hasCRLF l = true) :
    hasCRLF (c :: l) = true := by
  match l with
  | [] => simp [hasCRLF, splitCRLF] at h
  | d :: rest =>
    simp only [hasCRLF, splitCRLF] at h ⊢
    split
    · rfl
    · cases hs : splitCRLF (d :: rest) with
      | none => rw [hs] at h; simp at h
      | some p => rfl

theorem splitCRLF_append (line rest : List Char) (h : hasCRLF line = false) :
    splitCRLF (line ++ '\r' :: '\n' :: rest) = some (line, rest) := by
  induction line with
  | nil => simp [splitCRLF]
  | cons c tail ih =>
    have htail : hasCRLF tail = false := by
      by_contra hc
      rw [hasCRLF_cons c tail (by revert hc; cases hasCRLF tail <;> simp)] at h
      exact absurd h (by simp)
    match tail with
    | [] =>
      have hc : ¬ (c = '\r' ∧ '\r' = '\n') := by
        rintro ⟨-, h2⟩; exact absurd h2 (by decide)
      simp [splitCRLF, hc]
    | d :: rest' =>
      have hcd : ¬ (c = '\r' ∧ d = '\n') := by
        rintro ⟨h1, h2⟩
        subst h1; subst h2
        simp [hasCRLF, splitCRLF] at h
      have ihres := ih htail
      simp only [List.cons_append] at ihres ⊢
      rw [splitCRLF, if_neg hcd, ihres]
      rfl

theorem cstr_append_nul (l t : List Char) (h : '\x00' ∉ l) :
    cstr (l ++ '\x00' :: t) = l := by
  induction l with
  | nil => simp [cstr]
  | cons c rest ih =>
    simp only [List.mem_cons, not_or] at h
    simp only [List.cons_append, cstr, List.append_eq]
    rw [if_neg (fun hc => h.1 hc.symm), ih h.2]

theorem cstr_strlcpyM (dst src : List Char) (size : Nat) (h1 : size ≠ 0)
    (h2 : size - 1 ≤ src.length) (hn : '\x00' ∉ src.take (size - 1)) :
    cstr (strlcpyM dst src size) = src.take (size - 1) := by
  simp only [strlcpyM, if_neg h1, Nat.min_eq_left h2]
  exact cstr_append_nul _ _ hn

/-! ## Header-field constants (UPnPBuffer.cpp and ssdp.cpp) -/

def M_SEARCH_HEADER : List Char := "M-SEARCH".toList
def RESPONSE_HEADER : List Char := "HTTP/1.1".toList
def DESC_LSC_HEADER : List Char := "DESC.LEELANAUSOFTWARE.COM".toList
def ST_LSC_HEADER : List Char := "ST.LEELANAUSOFTWARE.COM".toList
def ST_HEADER : List Char := "ST".toList
def ST_UPNP_ROOTDEVICE : List Char := "upnp:rootdevice".toList
def ST_UUID : List Char := "uuid:".toList
def ST_TYPE : List Char := "urn:".toList
def SSDP_ALL : List Char := "ssdp:all".toList
def NAME_KEY : List Char := ":name:".toList

/-! ## UPnPBuffer

The constructor `UPnPBuffer::UPnPBuffer` strips leading blanks, so every
parsing entry point below applies `dropSpaces` to the raw packet first.
-/

/-- `UPnPBuffer::isSearchRequest`: `strncmp(_buffer, "M-SEARCH", 8) == 0`.
The needle is exactly 8 bytes, so this is a prefix test on the
blank-stripped buffer. -/
def isSearchRequest (pkt : List Char) : Bool :=
  M_SEARCH_HEADER.isPrefixOf (dropSpaces pkt)

/-- `UPnPBuffer::isSearchResponse`: `strncmp(_buffer, "HTTP/1.1", 8) == 0`. -/
def isSearchResponse (pkt : List Char) : Bool :=
  RESPONSE_HEADER.isPrefixOf (dropSpaces pkt)

/-- Model of `UPnPBuffer::getNextLine(lineStart, buffer, bufferLen)` with both
pointers non-null.  It first writes the character `'0'` into `buffer[0]`, then
looks for a CRLF: if none is found it returns a null cursor and makes no
further write; otherwise it `strlcpy`s `lineEnd - lineStart + 1` bytes
(clamped to `bufferLen`) from `lineStart` — i.e. the line **without** its CRLF
— and returns the cursor just past the CRLF with leading blanks skipped.
The first component is the returned cursor, the second the buffer contents
after the call. -/
def getNextLine (lineStart : List Char) (buffer : List Char) (bufferLen : Nat) :
    Option (List Char) × List Char :=
  match splitCRLF lineStart with
  | none => (none, buffer.set 0 '0')
  | some (line, rest) =>
    (some (dropSpaces rest),
      strlcpyM (buffer.set 0 '0') lineStart
        (if bufferLen < line.length + 1 then bufferLen else line.length + 1))

/-- `UPnPBuffer::hasNextLine(lineStart)`: a CRLF exists past the cursor with at
least one byte before it. -/
def hasNextLine (lineStart : List Char) : Bool :=
  match splitCRLF lineStart with
  | none => false
  | some (line, _) => line.length > 0

/-- `strstr(line, ":")` followed by `++`: the suffix after the first colon. -/
def findColon : List Char → Option (List Char)
  | [] => none
  | c :: rest => if c = ':' then some rest else findColon rest

/-- One iteration of the `UPnPBuffer::headerValue` loop body on the line just
copied out by `getNextLine`.  The line matches when it begins with `header`
and the byte at offset `|header|` is a blank or a colon (`strstr` returns the
first occurrence, and the code insists it be at the start of the line).  On a
match with a colon present, the result flag is set and the output buffer is
overwritten with the value — the text after the first `':'`, leading blanks
dropped, truncated by `strlcpy` to `len - 1` bytes.  The trailing-blank scan
in the source starts at the value's null terminator (`headerValue + strlen`),
so it never moves: trailing blanks are kept. -/
def procLine (header : List Char) (len : Nat) (line : List Char)
    (acc : Option (List Char)) : Option (List Char) :=
  if header.isPrefixOf line && (line.get? header.length == some ' ' || line.get? header.length == some ':') then
    match findColon line with
    | none => acc
    | some afterColon => some ((dropSpaces afterColon).take (len - 1))
  else acc

/-- The `while (hasNextLine(lineStart))` loop of `UPnPBuffer::headerValue`.
`maxLen()` sizes the stack line buffer one past the longest line, so the
`getNextLine` copy never truncates a line; the loop state is the cursor and
the current (flag, value) pair, modelled as `Option (List Char)`.  `fuel`
makes the recursion structural; every iteration consumes at least two bytes
of the cursor, so fuel equal to the buffer length (see `headerValue`) is
never exhausted and the `0` branch is unreachable. -/
def hvLoop (header : List Char) (len : Nat) :
    Nat → List Char → Option (List Char) → Option (List Char)
  | 0, _, acc => acc
  | fuel + 1, buf, acc =>
    match splitCRLF buf with
    | none => acc
    | some (line, rest) =>
      if line.length = 0 then acc
      else hvLoop header len fuel (dropSpaces rest) (procLine header len line acc)

/-- `UPnPBuffer::headerValue(header, buffer, len)`: `none` models a `false`
return, `some v` a `true` return with `v` the buffer contents (as a C
string; `strlcpy` null-terminates within `len`). -/
def headerValue (header : List Char) (pkt : List Char) (len : Nat) :
    Option (List Char) :=
  hvLoop header len (dropSpaces pkt).length (dropSpaces pkt) none

/-- `strstr(v, ":name:")` followed by `start += 6`: suffix after the first
occurrence of the needle. -/
def afterSub (needle : List Char) : List Char → Option (List Char)
  | [] => if needle.isPrefixOf ([] : List Char) then some [] else none
  | c :: rest =>
    if needle.isPrefixOf (c :: rest) then some ((c :: rest).drop needle.length)
    else afterSub needle rest

/-- Index of the first `':'` (`strstr(start, ":")` as an offset). -/
def colonIdx : List Char → Option Nat
  | [] => none
  | c :: rest => if c = ':' then some 0 else (colonIdx rest).map (· + 1)

/-- `UPnPBuffer::displayName(buffer, len)`: looks the DESC header up into a
200-byte scratch buffer; the boolean result is that lookup's result.  Only
when `":name:"` and a following `':'` are both found is the name copied:
`nameLen = end - start + 1`, clamped to `len - 1` when it exceeds `len`, and
`strlcpy` copies `nameLen - 1` bytes.  Returns (flag, buffer contents). -/
def displayName (pkt : List Char) (len : Nat) : Bool × List Char :=
  match headerValue DESC_LSC_HEADER pkt 200 with
  | none => (false, [])
  | some v =>
    match afterSub NAME_KEY v with
    | none => (true, [])
    | some start =>
      match colonIdx start with
      | none => (true, [])
      | some idx =>
        let nameLen := idx + 1
        let nameLen := if nameLen > len then len - 1 else nameLen
        (true, start.take (nameLen - 1))

/-! ## Device tree

The tree lives in the external UPnPDevice library (an out-of-scope
collaborator).  Its consumed interface — `services()` / `numServices()`
iteration, `devices()` / `numDevices()` for the root, `asRootDevice()` kind
discrimination, and byte-exact `isType()` — is modelled structurally:
a root owns embedded devices and services, an embedded device owns services,
and `numServices()` is the length of the list handed back by `services()`.
-/

structure UPnPService where
  stype : List Char
deriving DecidableEq

structure UPnPDevice where
  dtype : List Char
  services : List UPnPService
deriving DecidableEq

structure RootDevice where
  dtype : List Char
  services : List UPnPService
  devices : List UPnPDevice
deriving DecidableEq

/-- A `UPnPDevice*` argument of the `post*` functions: dynamically either the
root (where `asRootDevice()` is non-null) or an embedded device. -/
def DevRef : Type := RootDevice ⊕ UPnPDevice

instance : DecidableEq DevRef := instDecidableEqSum

/-- One emitted response datagram, identified by the tree node it describes
(`postDeviceResponse` emits a root- or device-shaped datagram,
`postServiceResponse` a service-shaped one). -/
inductive RNode where
  | root (r : RootDevice)
  | dev (d : UPnPDevice)
  | svc (s : UPnPService)
deriving DecidableEq

/-- The type string a response's node advertises (`getType()` of the node). -/
def nodeType : RNode → List Char
  | .root r => r.dtype
  | .dev d => d.dtype
  | .svc s => s.stype

/-- `SSDP::postDeviceResponse(d, ...)`: formats exactly one datagram — the
`ROOT_RESPONSE` template when `asRootDevice()` is non-null, else the
`DEVICE_RESPONSE` template — and sends it. -/
def postDeviceResponse : DevRef → List RNode
  | Sum.inl r => [RNode.root r]
  | Sum.inr d => [RNode.dev d]

/-- `SSDP::postAllResponse` on an embedded device (`asRootDevice()` null):
the device response, then one service response per owned service in
iteration order; the device recursion body is skipped. -/
def postAllResponseDev (d : UPnPDevice) : List RNode :=
  RNode.dev d :: d.services.map RNode.svc

/-- `SSDP::postAllResponse` on the root (`asRootDevice()` non-null): the
device response, one response per owned service, then the recursive call on
each embedded device in registration order. -/
def postAllResponseRoot (r : RootDevice) : List RNode :=
  RNode.root r ::
    (r.services.map RNode.svc ++ (r.devices.map postAllResponseDev).flatten)

/-- `SSDP::postAllMatching` on an embedded device: respond for the device if
`isType(st)` (byte-exact), then for each owned service whose type matches. -/
def postAllMatchingDev (st : List Char) (d : UPnPDevice) : List RNode :=
  (if d.dtype == st then [RNode.dev d] else []) ++
    (d.services.filter (fun s => s.stype == st)).map RNode.svc

/-- `SSDP::postAllMatching` on the root: as for a device, then the recursive
call on each embedded device in registration order. -/
def postAllMatchingRoot (st : List Char) (r : RootDevice) : List RNode :=
  (if r.dtype == st then [RNode.root r] else []) ++
    (r.services.filter (fun s => s.stype == st)).map RNode.svc ++
    (r.devices.map (postAllMatchingDev st)).flatten

/-! ## SSDP::readChannel — the search-dispatch state machine -/

/-- The deferred post handler chosen by `readChannel` (`setPostHandler`):
`noAction` is the default `[]{}` lambda. -/
inductive PostAction where
  | noAction
  | deviceResp (target : DevRef) (st : List Char)
  | allResp (target : DevRef) (st : List Char)
  | allMatch (st : List Char)

/-- `SSDP::readChannel` on a received packet.  `getDev` models the external
`RootDevice::getDevice(uuid)` lookup (the `strncpy(uuid, ..., UUID_SIZE)`
copy is a bounded copy inside that external call chain).  Returns the
boolean result together with the post handler that was installed. -/
def readChannel (root : RootDevice) (getDev : List Char → Option DevRef)
    (pkt : List Char) : Bool × PostAction :=
  if isSearchRequest pkt then
    match headerValue ST_LSC_HEADER pkt 20 with
    | none => (false, .noAction)
    | some g =>
      match headerValue ST_HEADER pkt 100 with
      | none => (false, .noAction)
      | some st =>
        if ST_UPNP_ROOTDEVICE.isPrefixOf st then        -- strncmp(.., 15)
          if SSDP_ALL.isPrefixOf g then (true, .allResp (Sum.inl root) st)  -- strncmp(.., 8)
          else (true, .deviceResp (Sum.inl root) st)
        else if ST_UUID.isPrefixOf st then              -- strncmp(.., 5)
          match getDev (dropSpaces (st.drop 5)) with
          | some dref =>
            if SSDP_ALL.isPrefixOf g then (true, .allResp dref st)
            else (true, .deviceResp dref st)
          | none => (false, .noAction)
        else if ST_TYPE.isPrefixOf st then              -- strncmp(.., 4)
          (true, .allMatch st)
        else (false, .noAction)
  else (false, .noAction)

/-- Executing the installed post handler (`SSDP::doChannel` runs it when
`readChannel` returned true): the response datagrams it emits, in order. -/
def dispatch (root : RootDevice) : PostAction → List RNode
  | .noAction => []
  | .deviceResp dref _ => postDeviceResponse dref
  | .allResp (Sum.inl r) _ => postAllResponseRoot r
  | .allResp (Sum.inr d) _ => postAllResponseDev d
  | .allMatch st => postAllMatchingRoot st root

/-! ## SSDP::searchRequest — the query client -/

inductive SSDPResult where
  | SSDP_OK
  | SSDP_ERR_UDP
  | SSDP_ERR_SEND
  | SSDP_ERR_ST
deriving DecidableEq

/-- The `SSDP_Search` template with its `%s` hole filled, truncated by
`snprintf` to `SSDP_BUFFER_SIZE - 1 = 999` bytes. -/
def searchMsg (st : List Char) : List Char :=
  ("M-SEARCH * HTTP/1.1\r\nHOST: 239.255.255.250:1900\r\nMAN: ssdp:discover\r\nST: ".toList
    ++ st
    ++ "\r\nST.LEELANAUSOFTWARE.COM: ssdp:all\r\nUSER-AGENT: ESP8266 UPnP/1.1 LSC-SSDP/1.0\r\n\r\n".toList).take 999

/-- The fixed `SSDP_RootSearch` / `SSDP_RootAllSearch` templates. -/
def rootSearchMsg (ssdpAll : Bool) : List Char :=
  if ssdpAll then
    "M-SEARCH * HTTP/1.1\r\nHOST: 239.255.255.250:1900\r\nMAN: ssdp:discover\r\nST: upnp:rootdevice\r\nST.LEELANAUSOFTWARE.COM: ssdp:all\r\nUSER-AGENT: ESP8266 UPnP/1.1 LSC-SSDP/1.0\r\n\r\n".toList
  else
    "M-SEARCH * HTTP/1.1\r\nHOST: 239.255.255.250:1900\r\nMAN: ssdp:discover\r\nST: upnp:rootdevice\r\nST.LEELANAUSOFTWARE.COM: \r\nUSER-AGENT: ESP8266 UPnP/1.1 LSC-SSDP/1.0\r\n\r\n".toList

/-- The transmit phase of `SSDP::searchRequest`: validate the search target
(`strcmp` against `upnp:rootdevice`, then `strncmp` against `uuid:` and
`urn:`), and — only while the running result is `SSDP_OK` — begin a packet,
`udp.write` the datagram, and end the packet.  `beginOk`/`endOk` model the
transport's `beginPacket`/`endPacket` success.  Returns the final
`SSDPResult` and the list of datagrams handed to `udp.write`. -/
def searchRequestSend (beginOk endOk : Bool) (ST : List Char) (ssdpAll : Bool) :
    SSDPResult × List (List Char) :=
  let build : SSDPResult × Option (List Char) :=
    if ST = ST_UPNP_ROOTDEVICE then (.SSDP_OK, some (rootSearchMsg ssdpAll))
    else if ST_UUID.isPrefixOf ST then (.SSDP_OK, some (searchMsg ST))
    else if ST_TYPE.isPrefixOf ST then (.SSDP_OK, some (searchMsg ST))
    else (.SSDP_ERR_ST, none)
  match build with
  | (.SSDP_OK, some msg) =>
    if !beginOk then (.SSDP_ERR_UDP, [])
    else if !endOk then (.SSDP_ERR_SEND, [msg])
    else (.SSDP_OK, [msg])
  | (res, _) => (res, [])

/-- The per-packet filter of the `searchRequest` receive loop: the user
handler runs exactly when the packet is a search response, its `ST` header
(read into a 100-byte buffer) compares `strcmp`-equal to the request's `ST`,
and `displayName` into a 32-byte buffer returns true. -/
def searchFilter (ST pkt : List Char) : Bool :=
  if isSearchResponse pkt then
    match headerValue ST_HEADER pkt 100 with
    | some stv => if stv = ST then (displayName pkt 32).1 else false
    | none => false
  else false

/-! ## SSDP::interfaceAddress -/

/-- `SSDP::interfaceAddress(address)` over 32-bit words as naturals:
`localIPMask = localIP & subnet`, `softAPIPMask = softAPIP & subnet`; return
`localIP` when `addr & localIPMask != 0`, else `softAPIP` when
`addr & softAPIPMask != 0`, else `INADDR_ANY` (0). -/
def interfaceAddress (localIP softAPIP subnet addr : Nat) : Nat :=
  let localIPMask := localIP &&& subnet
  let softAPIPMask := softAPIP &&& subnet
  if addr &&& localIPMask ≠ 0 then localIP
  else if addr &&& softAPIPMask ≠ 0 then softAPIP
  else 0

/-! ## Specification-side definitions

These follow the spec's words (§3, §4.1, §4.4, §6, §8) and are compared with
the definitions translated from the source above.
-/

/-- Spec §8: a line of a well-formed packet — non-empty, no CRLF inside, and
(per §3, "no leading whitespace before the name") not starting with a blank. -/
def wellFormedLine (l : List Char) : Prop :=
  l ≠ [] ∧ hasCRLF l = false ∧ l.head? ≠ some ' '

instance (l : List Char) : Decidable (wellFormedLine l) := by
  unfold wellFormedLine; infer_instance

/-- A packet assembled from CRLF-terminated lines followed by a trailer. -/
def packetOf (lines : List (List Char)) (trailer : List Char) : List Char :=
  (lines.map (fun l => l ++ '\r' :: '\n' :: ([] : List Char))).flatten ++ trailer

/-- The trailer ends the header block: once blanks are skipped it holds no
further non-empty line before a CRLF (e.g. the empty trailer, or the blank
line `"\r\n"` terminating the message, possibly followed by a body). -/
def endsHeaderBlock (trailer : List Char) : Prop :=
  match splitCRLF (dropSpaces trailer) with
  | none => True
  | some (l, _) => l = []

instance (t : List Char) : Decidable (endsHeaderBlock t) := by
  unfold endsHeaderBlock
  rcases splitCRLF (dropSpaces t) with - | ⟨l, r⟩ <;> simp <;> infer_instance

/-- Spec §4.1 (amended): a line matches header `H` iff it begins with `H`,
the byte at position `|H|` is `':'` or `' '`, and a `':'` occurs on the line
(without one, the source leaves both the flag and the buffer untouched). -/
def specLineMatches (header line : List Char) : Bool :=
  header.isPrefixOf line &&
    (line.get? header.length == some ' ' || line.get? header.length == some ':') &&
    (findColon line).isSome

/-- Spec §4.1 (amended): the value of a matching line — the text after the
first `':'`, leading blanks removed, trailing blanks kept, truncated to
`len - 1` bytes. -/
def specValue (len : Nat) (line : List Char) : List Char :=
  (dropSpaces ((findColon line).getD [])).take (len - 1)

/-- Spec §4.1 / §8 (`display_name`): the text between the first `":name:"`
of the DESC value and the next `':'`. -/
def specNameTag (v : List Char) : Option (List Char) :=
  (afterSub NAME_KEY v).bind (fun start => (colonIdx start).map (fun i => start.take i))

/-- Spec §4.4: all tree nodes in tree order — root, root services, then each
embedded device followed by its services, in registration order. -/
def treeNodes (r : RootDevice) : List RNode :=
  RNode.root r ::
    (r.services.map RNode.svc ++
      (r.devices.map (fun d => RNode.dev d :: d.services.map RNode.svc)).flatten)

/-- Spec §6: `interface_of` subnet membership — `addr` lies on the subnet of
interface `ip` under `mask`. -/
def specOnSubnet (addr ip mask : Nat) : Prop :=
  addr &&& mask = ip &&& mask

instance (a i m : Nat) : Decidable (specOnSubnet a i m) := by
  unfold specOnSubnet; infer_instance

/-! ## Loop characterization for `headerValue` -/

theorem procLine_eq (header : List Char) (len : Nat) (line : List Char)
    (acc : Option (List Char)) :
    procLine header len line acc =
      if specLineMatches header line then some (specValue len line) else acc := by
  unfold procLine specLineMatches specValue
  cases hp : header.isPrefixOf line <;>
    cases hs : (line.get? header.length == some ' ' || line.get? header.length == some ':') <;>
      cases hc : findColon line <;> simp [hp, hs, hc]

theorem foldl_lastMatch (p : List Char → Bool) (v : List Char → List Char) :
    ∀ (lines : List (List Char)) (acc : Option (List Char)),
      lines.foldl (fun a l => if p l then some (v l) else a) acc =
        match (lines.filter p).getLast? with
        | some l => some (v l)
        | none => acc := by
  intro lines
  induction lines with
  | nil => intro acc; simp
  | cons l ls ih =>
    intro acc
    simp only [List.foldl_cons, ih]
    by_cases hp : p l
    · simp only [List.filter_cons, hp, if_pos, if_true]
      cases hfl : ls.filter p with
      | nil => simp [hfl, hp]
      | cons y ys =>
        rw [List.getLast?_cons_cons]
        cases h2 : (y :: ys).getLast? with
        | none => rw [List.getLast?_eq_none_iff] at h2; cases h2
        | some l' => rfl
    · simp only [List.filter_cons, hp]
      simp [hp]

theorem dropSpaces_idem (l : List Char) : dropSpaces (dropSpaces l) = dropSpaces l := by
  induction l with
  | nil => rfl
  | cons c rest ih =>
    simp only [dropSpaces]
    split
    · exact ih
    · rename_i hc
      simp [dropSpaces, hc]

theorem hvLoop_none (header : List Char) (len fuel : Nat) (buf : List Char)
    (acc : Option (List Char)) (h : splitCRLF buf = none) :
    hvLoop header len fuel buf acc = acc := by
  cases fuel with
  | zero => rfl
  | succ f => simp [hvLoop, h]

theorem hvLoop_empty (header : List Char) (len fuel : Nat) (buf rest : List Char)
    (acc : Option (List Char)) (h : splitCRLF buf = some ([], rest)) :
    hvLoop header len fuel buf acc = acc := by
  cases fuel with
  | zero => rfl
  | succ f => simp [hvLoop, h]

theorem hvLoop_step (header : List Char) (len fuel : Nat) (buf line rest : List Char)
    (acc : Option (List Char)) (h : splitCRLF buf = some (line, rest))
    (hne : line ≠ []) :
    hvLoop header len (fuel + 1) buf acc =
      hvLoop header len fuel (dropSpaces rest) (procLine header len line acc) := by
  simp only [hvLoop, h]
  rw [if_neg (by simpa [List.length_eq_zero] using hne)]

theorem hvLoop_stop (header : List Char) (len fuel : Nat) (buf : List Char)
    (acc : Option (List Char)) (h : endsHeaderBlock buf)
    (h2 : dropSpaces buf = buf) :
    hvLoop header len fuel buf acc = acc := by
  unfold endsHeaderBlock at h
  rw [h2] at h
  cases hs : splitCRLF buf with
  | none => exact hvLoop_none header len fuel buf acc hs
  | some p =>
    obtain ⟨l, r⟩ := p
    rw [hs] at h
    simp only at h
    subst h
    exact hvLoop_empty header len fuel buf r acc hs

theorem hvLoop_packet (header : List Char) (len : Nat) :
    ∀ (lines : List (List Char)) (fuel : Nat) (trailer : List Char)
      (acc : Option (List Char)),
      (∀ l ∈ lines, wellFormedLine l) → endsHeaderBlock trailer →
      (dropSpaces (packetOf lines trailer)).length ≤ fuel →
      hvLoop header len fuel (dropSpaces (packetOf lines trailer)) acc =
        lines.foldl (fun a l => procLine header len l a) acc := by
  intro lines
  induction lines with
  | nil =>
    intro fuel trailer acc _ hstop _
    simp only [packetOf, List.map_nil, List.flatten_nil, List.nil_append, List.foldl_nil]
    apply hvLoop_stop
    · unfold endsHeaderBlock at hstop ⊢
      rwa [dropSpaces_idem]
    · exact dropSpaces_idem trailer
  | cons l ls ih =>
    intro fuel trailer acc hwf hstop hfuel
    have hl := hwf l (List.mem_cons_self l ls)
    obtain ⟨hne, hnoCRLF, hhead⟩ := hl
    have hpkt : packetOf (l :: ls) trailer =
        l ++ '\r' :: '\n' :: packetOf ls trailer := by
      simp [packetOf]
    rw [hpkt] at hfuel ⊢
    obtain ⟨c, l', rfl⟩ : ∃ c l', l = c :: l' := by
      cases l with
      | nil => exact absurd rfl hne
      | cons c l' => exact ⟨c, l', rfl⟩
    have hc : c ≠ ' ' := by
      simpa using hhead
    have hdrop : dropSpaces ((c :: l') ++ '\r' :: '\n' :: packetOf ls trailer)
        = (c :: l') ++ '\r' :: '\n' :: packetOf ls trailer := by
      rw [show (c :: l') ++ '\r' :: '\n' :: packetOf ls trailer =
        c :: (l' ++ '\r' :: '\n' :: packetOf ls trailer) by simp,
        dropSpaces_of_head_ne _ hc]
    rw [hdrop] at hfuel ⊢
    have hlen : (packetOf ls trailer).length + 3 ≤ fuel := by
      have := hfuel
      simp only [List.length_append, List.length_cons] at this
      omega
    obtain ⟨f, rfl⟩ : ∃ f, fuel = f + 1 := ⟨fuel - 1, by omega⟩
    rw [hvLoop_step header len f _ (c :: l') (packetOf ls trailer) acc
      (splitCRLF_append (c :: l') (packetOf ls trailer) hnoCRLF) (by simp)]
    simp only [List.foldl_cons]
    refine ih f trailer _ (fun x hx => hwf x (List.mem_cons_of_mem _ hx)) hstop ?_
    have := dropSpaces_length_le (packetOf ls trailer)
    omega

/-! ## Claim theorems -/

/-- C2, counterexample.  On the packet `"ST: ab \r\n\r\n"` the source returns
the value `"ab "` with its trailing blank intact: the trailing-trim loop of
`UPnPBuffer::headerValue` starts at the null terminator and never runs, so
the claim's "trailing spaces removed" is false here (it demands `"ab"`). -/
theorem headerValue_keeps_trailing_blank :
    headerValue ST_HEADER (packetOf ["ST: ab ".toList] "\r\n".toList) 100 =
      some "ab ".toList ∧
    "ab ".toList ≠ "ab".toList := by
  constructor
  · decide
  · decide

/-- C2 (amended): for a packet with well-formed CRLF lines, `headerValue`
returns `some` exactly when some line begins with the header name, is
followed there by `':'` or `' '`, **and contains a `':'`**; the value is that
of the last such line — the text after the line's first `':'`, leading blanks
removed, trailing blanks kept (the source's right-trim loop is a no-op),
truncated to `len - 1` bytes and null-terminated — and `some []` (true with
an empty value) is possible. -/
theorem headerValue_last_match (header : List Char) (len : Nat)
    (lines : List (List Char)) (trailer : List Char)
    (hwf : ∀ l ∈ lines, wellFormedLine l) (hend : endsHeaderBlock trailer) :
    headerValue header (packetOf lines trailer) len =
      ((lines.filter (specLineMatches header)).getLast?).map (specValue len) := by
  unfold headerValue
  rw [hvLoop_packet header len lines _ trailer none hwf hend (Nat.le_refl _)]
  simp only [procLine_eq]
  rw [foldl_lastMatch (specLineMatches header) (specValue len)]
  cases (lines.filter (specLineMatches header)).getLast? <;> rfl

/-- Witness for C2 at a concrete packet: two `ST:` lines; the second one
wins, its leading blank is dropped, its trailing blank is kept, and a line
`"ST nocolonhere"` (blank separator, no colon) does not match. -/
theorem headerValue_last_match_witness :
    (∀ l ∈ [ "HOST: 239.255.255.250:1900".toList, "ST: first".toList,
             "ST nocolonhere".toList, "ST:  second ".toList ], wellFormedLine l) ∧
    endsHeaderBlock "\r\n".toList ∧
    headerValue ST_HEADER
        (packetOf [ "HOST: 239.255.255.250:1900".toList, "ST: first".toList,
                    "ST nocolonhere".toList, "ST:  second ".toList ] "\r\n".toList) 100 =
      ((([ "HOST: 239.255.255.250:1900".toList, "ST: first".toList,
           "ST nocolonhere".toList, "ST:  second ".toList ].filter
            (specLineMatches ST_HEADER)).getLast?).map (specValue 100)) ∧
    headerValue ST_HEADER
        (packetOf [ "HOST: 239.255.255.250:1900".toList, "ST: first".toList,
                    "ST nocolonhere".toList, "ST:  second ".toList ] "\r\n".toList) 100 =
      some "second ".toList :=
  ⟨by decide, by decide,
    headerValue_last_match ST_HEADER 100 _ _ (by decide) (by decide),
    by decide⟩

/-- C7, counterexample.  `getNextLine` on `"AB\r\nC"` with ample capacity
leaves `"AB"` in the output buffer — not `"AB\r\n"` as the claim's "up to and
including that CRLF" requires (the source's own comment says "up to but not
including EOL"). -/
theorem getNextLine_excludes_crlf :
    cstr (getNextLine "AB\r\nC".toList (List.replicate 8 'z') 8).2 = "AB".toList ∧
    "AB".toList ≠ "AB\r\n".toList := by
  constructor
  · decide
  · decide

/-- C10 (confirmed): when no CRLF occurs at or after the cursor,
`getNextLine` returns a null cursor and its only write to the output buffer
is `buffer[0] = '0'` — the digit, not a null terminator, so the buffer is
not null-terminated by the call. -/
theorem getNextLine_no_crlf_writes_digit (lineStart buffer : List Char)
    (bufferLen : Nat) (h : hasCRLF lineStart = false) (hb : buffer ≠ []) :
    getNextLine lineStart buffer bufferLen = (none, buffer.set 0 '0') ∧
    (buffer.set 0 '0').head? = some '0' := by
  have hn : splitCRLF lineStart = none := by
    unfold hasCRLF at h
    cases hs : splitCRLF lineStart with
    | none => rfl
    | some p => rw [hs] at h; simp at h
  constructor
  · unfold getNextLine
    rw [hn]
  · cases buffer with
    | nil => exact absurd rfl hb
    | cons c rest => rfl

/-- Witness for C10: a CRLF-free cursor, a four-byte buffer of `'z'`s. -/
theorem getNextLine_no_crlf_writes_digit_witness :
    hasCRLF "ABCD".toList = false ∧ "zzzz".toList ≠ [] ∧
    (getNextLine "ABCD".toList "zzzz".toList 4 = (none, "zzzz".toList.set 0 '0') ∧
      ("zzzz".toList.set 0 '0').head? = some '0') :=
  ⟨by decide, by decide,
    getNextLine_no_crlf_writes_digit "ABCD".toList "zzzz".toList 4 (by decide) (by decide)⟩

/-- C7 (amended): when a CRLF follows the cursor, `getNextLine` copies the
bytes from the cursor **up to but not including** the CRLF into the output
buffer (truncated to `bufferLen - 1` bytes and null-terminated) and returns
a cursor positioned just past the CRLF with leading blanks skipped; with no
CRLF it returns a null cursor (see `getNextLine_no_crlf_writes_digit`). -/
theorem getNextLine_copies_line (line rest buffer : List Char) (bufferLen : Nat)
    (hno : hasCRLF line = false) (hnul : '\x00' ∉ line) (hlen : 1 ≤ bufferLen) :
    (getNextLine (line ++ '\r' :: '\n' :: rest) buffer bufferLen).1 =
      some (dropSpaces rest) ∧
    cstr (getNextLine (line ++ '\r' :: '\n' :: rest) buffer bufferLen).2 =
      line.take (bufferLen - 1) := by
  unfold getNextLine
  rw [splitCRLF_append line rest hno]
  refine ⟨rfl, ?_⟩
  set sz := if bufferLen < line.length + 1 then bufferLen else line.length + 1 with hsz
  have h1 : sz ≠ 0 := by rw [hsz]; split <;> omega
  have hle : sz - 1 ≤ line.length := by rw [hsz]; split <;> omega
  have h2 : sz - 1 ≤ (line ++ '\r' :: '\n' :: rest).length := by
    simp only [List.length_append, List.length_cons]; omega
  have hsub : (line ++ '\r' :: '\n' :: rest).take (sz - 1) = line.take (sz - 1) :=
    List.take_append_of_le_length hle
  rw [cstr_strlcpyM _ _ _ h1 h2 (by
    rw [hsub]; exact fun hc => hnul (List.mem_of_mem_take hc)), hsub]
  rcases Nat.lt_or_ge bufferLen (line.length + 1) with hc | hc
  · rw [hsz, if_pos hc]
  · have hsz' : sz = line.length + 1 := by rw [hsz, if_neg (by omega)]
    rw [hsz']
    simp only [Nat.add_sub_cancel]
    rw [List.take_of_length_le (Nat.le_refl _), List.take_of_length_le (by omega)]

/-- Witness for C7: line `"AB"`, capacity 8 — full copy; and the cursor
lands on `"C"`. -/
theorem getNextLine_copies_line_witness :
    hasCRLF "AB".toList = false ∧ '\x00' ∉ "AB".toList ∧ 1 ≤ 8 ∧
    ((getNextLine ("AB".toList ++ '\r' :: '\n' :: "C".toList)
        (List.replicate 8 'z') 8).1 = some (dropSpaces "C".toList) ∧
      cstr (getNextLine ("AB".toList ++ '\r' :: '\n' :: "C".toList)
        (List.replicate 8 'z') 8).2 = "AB".toList.take 7) :=
  ⟨by decide, by decide, by decide,
    getNextLine_copies_line "AB".toList "C".toList (List.replicate 8 'z') 8
      (by decide) (by decide) (by decide)⟩

theorem colonIdx_lt : ∀ (l : List Char) (i : Nat), colonIdx l = some i → i < l.length := by
  intro l
  induction l with
  | nil => intro i h; simp [colonIdx] at h
  | cons c rest ih =>
    intro i h
    simp only [colonIdx] at h
    split at h
    · cases h; simp
    · simp only [Option.map_eq_some'] at h
      obtain ⟨j, hj, rfl⟩ := h
      have := ih j hj
      simp only [List.length_cons]
      omega

/-- The boolean result of `displayName` is exactly the result of the DESC
header lookup (the `:name:` search only affects the buffer, not the flag). -/
theorem displayName_fst_eq (pkt : List Char) (len : Nat) :
    (displayName pkt len).1 = (headerValue DESC_LSC_HEADER pkt 200).isSome := by
  unfold displayName
  cases headerValue DESC_LSC_HEADER pkt 200 with
  | none => rfl
  | some v =>
    dsimp only
    cases afterSub NAME_KEY v with
    | none => rfl
    | some start =>
      dsimp only
      cases colonIdx start with
      | none => rfl
      | some idx => rfl

/-- C8, counterexample.  A packet whose `DESC.LEELANAUSOFTWARE.COM` header
value `"foo"` contains no `":name:"` key: the claim requires `displayName`
to return false, but the source returns true (with an empty buffer) because
the flag is the DESC lookup result alone. -/
theorem displayName_true_without_name_key :
    headerValue DESC_LSC_HEADER
        "HTTP/1.1 200 OK \r\nDESC.LEELANAUSOFTWARE.COM: foo\r\n\r\n".toList 200 =
      some "foo".toList ∧
    afterSub NAME_KEY "foo".toList = none ∧
    displayName "HTTP/1.1 200 OK \r\nDESC.LEELANAUSOFTWARE.COM: foo\r\n\r\n".toList 32 =
      (true, []) := by
  refine ⟨by decide, by decide, by decide⟩

/-- C8 (amended): `displayName(out, len)` returns true exactly when the
`DESC.LEELANAUSOFTWARE.COM` header is present — whether or not a `":name:"`
key exists in its value.  When the value contains `":name:"` followed later
by another `':'` and the name fits the caller's buffer, `out` holds the text
between them; when the key or the closing `':'` is absent, `out` is left
empty (and the result is still true whenever the DESC header is present). -/
theorem displayName_desc_presence (pkt : List Char) (len : Nat) :
    ((displayName pkt len).1 = (headerValue DESC_LSC_HEADER pkt 200).isSome) ∧
    (∀ v nm, headerValue DESC_LSC_HEADER pkt 200 = some v →
      specNameTag v = some nm → nm.length + 1 ≤ len →
      (displayName pkt len).2 = nm) ∧
    (∀ v, headerValue DESC_LSC_HEADER pkt 200 = some v →
      specNameTag v = none → (displayName pkt len).2 = []) := by
  refine ⟨displayName_fst_eq pkt len, ?_, ?_⟩
  · intro v nm hv htag hfit
    unfold displayName
    rw [hv]
    dsimp only
    unfold specNameTag at htag
    cases ha : afterSub NAME_KEY v with
    | none => rw [ha] at htag; cases htag
    | some start =>
      rw [ha] at htag
      simp only [Option.some_bind, Option.map_eq_some'] at htag
      obtain ⟨idx, hidx, rfl⟩ := htag
      dsimp only
      rw [hidx]
      dsimp only
      have hlt := colonIdx_lt start idx hidx
      have hidxlen : (start.take idx).length = idx := by
        simp [Nat.min_eq_left (Nat.le_of_lt hlt)]
      rw [hidxlen] at hfit
      rw [if_neg (by omega)]
      simp
  · intro v hv htag
    unfold displayName
    rw [hv]
    dsimp only
    unfold specNameTag at htag
    cases ha : afterSub NAME_KEY v with
    | none => rfl
    | some start =>
      rw [ha] at htag
      simp only [Option.some_bind, Option.map_eq_none'] at htag
      dsimp only
      rw [htag]

/-- Witness for C8 at a concrete response packet carrying
`:name:Sensor:puuid:x:`. -/
theorem displayName_desc_presence_witness :
    headerValue DESC_LSC_HEADER
        "HTTP/1.1 200 OK \r\nDESC.LEELANAUSOFTWARE.COM: :name:Sensor:puuid:x:\r\n\r\n".toList 200 =
      some ":name:Sensor:puuid:x:".toList ∧
    specNameTag ":name:Sensor:puuid:x:".toList = some "Sensor".toList ∧
    (displayName
        "HTTP/1.1 200 OK \r\nDESC.LEELANAUSOFTWARE.COM: :name:Sensor:puuid:x:\r\n\r\n".toList
        32).2 = "Sensor".toList :=
  ⟨by decide, by decide,
    (displayName_desc_presence
      "HTTP/1.1 200 OK \r\nDESC.LEELANAUSOFTWARE.COM: :name:Sensor:puuid:x:\r\n\r\n".toList
      32).2.1 ":name:Sensor:puuid:x:".toList "Sensor".toList
        (by decide) (by decide) (by decide)⟩

/-- C5, counterexample.  A search response whose DESC header is present but
carries no `":name:"` key is still handed to the user handler: the claim's
"non-empty DESC.name" condition is not what the source checks. -/
theorem searchFilter_delivers_nameless :
    searchFilter ST_UPNP_ROOTDEVICE
      "HTTP/1.1 200 OK \r\nST: upnp:rootdevice\r\nDESC.LEELANAUSOFTWARE.COM: x\r\n\r\n".toList =
      true ∧
    headerValue DESC_LSC_HEADER
      "HTTP/1.1 200 OK \r\nST: upnp:rootdevice\r\nDESC.LEELANAUSOFTWARE.COM: x\r\n\r\n".toList
      200 = some "x".toList ∧
    specNameTag "x".toList = none := by
  refine ⟨by decide, by decide, by decide⟩

/-- C5 (amended): during the `searchRequest` receive loop the user handler is
invoked on a received packet only if the packet is a search response, its
`ST` header value equals the request's `ST` byte-for-byte, and its
`DESC.LEELANAUSOFTWARE.COM` header is present (`displayName` returns true;
the name value itself may be absent or empty). -/
theorem searchFilter_only_matching_responses (ST pkt : List Char)
    (h : searchFilter ST pkt = true) :
    isSearchResponse pkt = true ∧
    headerValue ST_HEADER pkt 100 = some ST ∧
    (headerValue DESC_LSC_HEADER pkt 200).isSome = true := by
  unfold searchFilter at h
  split at h
  · rename_i hresp
    cases hst : headerValue ST_HEADER pkt 100 with
    | none => rw [hst] at h; cases h
    | some stv =>
      rw [hst] at h
      simp only at h
      split at h
      · rename_i heq
        subst heq
        rw [displayName_fst_eq] at h
        exact ⟨hresp, rfl, h⟩
      · cases h
  · cases h

/-- Witness for C5: a well-formed matching response is delivered, and the
three conclusions hold for it. -/
theorem searchFilter_only_matching_responses_witness :
    searchFilter ST_UPNP_ROOTDEVICE
      "HTTP/1.1 200 OK \r\nST: upnp:rootdevice\r\nDESC.LEELANAUSOFTWARE.COM: :name:A:\r\n\r\n".toList =
      true ∧
    (isSearchResponse
        "HTTP/1.1 200 OK \r\nST: upnp:rootdevice\r\nDESC.LEELANAUSOFTWARE.COM: :name:A:\r\n\r\n".toList =
        true ∧
      headerValue ST_HEADER
        "HTTP/1.1 200 OK \r\nST: upnp:rootdevice\r\nDESC.LEELANAUSOFTWARE.COM: :name:A:\r\n\r\n".toList
        100 = some ST_UPNP_ROOTDEVICE ∧
      (headerValue DESC_LSC_HEADER
        "HTTP/1.1 200 OK \r\nST: upnp:rootdevice\r\nDESC.LEELANAUSOFTWARE.COM: :name:A:\r\n\r\n".toList
        200).isSome = true) :=
  ⟨by decide,
    searchFilter_only_matching_responses ST_UPNP_ROOTDEVICE
      "HTTP/1.1 200 OK \r\nST: upnp:rootdevice\r\nDESC.LEELANAUSOFTWARE.COM: :name:A:\r\n\r\n".toList
      (by decide)⟩

/-- C1 (confirmed): an inbound M-SEARCH request without the
`ST.LEELANAUSOFTWARE.COM` gate header is silently dropped: `readChannel`
returns false, the post handler remains the default no-op installed at
entry, and dispatching that handler emits zero response datagrams. -/
theorem readChannel_silent_drop_without_gate (root : RootDevice)
    (getDev : List Char → Option DevRef) (pkt : List Char)
    (h1 : isSearchRequest pkt = true)
    (h2 : headerValue ST_LSC_HEADER pkt 20 = none) :
    readChannel root getDev pkt = (false, PostAction.noAction) ∧
    dispatch root (readChannel root getDev pkt).2 = [] := by
  have hr : readChannel root getDev pkt = (false, PostAction.noAction) := by
    unfold readChannel
    rw [if_pos h1, h2]
  exact ⟨hr, by rw [hr]; rfl⟩

/-- Witness for C1: spec §8 scenario 1 — an M-SEARCH for `upnp:rootdevice`
with no gate header, against a one-service, one-device tree. -/
theorem readChannel_silent_drop_without_gate_witness :
    isSearchRequest
      "M-SEARCH * HTTP/1.1\r\nHOST: 239.255.255.250:1900\r\nST: upnp:rootdevice\r\n\r\n".toList =
      true ∧
    headerValue ST_LSC_HEADER
      "M-SEARCH * HTTP/1.1\r\nHOST: 239.255.255.250:1900\r\nST: upnp:rootdevice\r\n\r\n".toList
      20 = none ∧
    (readChannel ⟨"urn:x:device:R:1".toList, [⟨"urn:x:service:S1:1".toList⟩],
        [⟨"urn:x:device:D1:1".toList, [⟨"urn:x:service:S2:1".toList⟩]⟩]⟩
      (fun _ => none)
      "M-SEARCH * HTTP/1.1\r\nHOST: 239.255.255.250:1900\r\nST: upnp:rootdevice\r\n\r\n".toList =
        (false, PostAction.noAction) ∧
      dispatch ⟨"urn:x:device:R:1".toList, [⟨"urn:x:service:S1:1".toList⟩],
        [⟨"urn:x:device:D1:1".toList, [⟨"urn:x:service:S2:1".toList⟩]⟩]⟩
        (readChannel ⟨"urn:x:device:R:1".toList, [⟨"urn:x:service:S1:1".toList⟩],
          [⟨"urn:x:device:D1:1".toList, [⟨"urn:x:service:S2:1".toList⟩]⟩]⟩
          (fun _ => none)
          "M-SEARCH * HTTP/1.1\r\nHOST: 239.255.255.250:1900\r\nST: upnp:rootdevice\r\n\r\n".toList).2 =
        []) :=
  ⟨by decide, by decide,
    readChannel_silent_drop_without_gate _ _ _ (by decide) (by decide)⟩

/-- C6 (confirmed): a `searchRequest` whose ST is neither exactly
`upnp:rootdevice` nor prefixed by `uuid:` or `urn:` returns `SSDP_ERR_ST`
and hands no datagram to the transport, regardless of the transport's
begin/end outcomes and of the `ssdpAll` flag. -/
theorem searchRequest_invalid_target (ST : List Char)
    (h1 : ST ≠ ST_UPNP_ROOTDEVICE)
    (h2 : ST_UUID.isPrefixOf ST = false)
    (h3 : ST_TYPE.isPrefixOf ST = false)
    (beginOk endOk ssdpAll : Bool) :
    searchRequestSend beginOk endOk ST ssdpAll = (SSDPResult.SSDP_ERR_ST, []) := by
  unfold searchRequestSend
  rw [if_neg h1]
  rw [if_neg (by simp [h2]), if_neg (by simp [h3])]

/-- Witness for C6: the malformed target `"foo"`. -/
theorem searchRequest_invalid_target_witness :
    "foo".toList ≠ ST_UPNP_ROOTDEVICE ∧
    ST_UUID.isPrefixOf "foo".toList = false ∧
    ST_TYPE.isPrefixOf "foo".toList = false ∧
    searchRequestSend true true "foo".toList true = (SSDPResult.SSDP_ERR_ST, []) :=
  ⟨by decide, by decide, by decide,
    searchRequest_invalid_target "foo".toList (by decide) (by decide) (by decide)
      true true true⟩

/-- C9, counterexample.  `interfaceAddress` tests
`addr & (localIP & subnet) != 0`, which is a bit-overlap test, not subnet
membership: the peer `200.0.0.1` lies on neither the `192.168.1.0/24`
infrastructure subnet nor the `172.16.0.0/24` soft-AP subnet, yet the source
returns the infrastructure IP instead of the claimed `0.0.0.0`. -/
theorem interfaceAddress_off_subnet_nonzero :
    interfaceAddress 0xC0A80105 0xAC100001 0xFFFFFF00 0xC8000001 = 0xC0A80105 ∧
    ¬ specOnSubnet 0xC8000001 0xC0A80105 0xFFFFFF00 ∧
    ¬ specOnSubnet 0xC8000001 0xAC100001 0xFFFFFF00 ∧
    (0xC0A80105 : Nat) ≠ 0 := by
  refine ⟨by decide, by decide, by decide, by decide⟩

/-- C9 (amended): `interfaceAddress(addr)` returns the infrastructure local
IP whenever `addr & (localIP & subnet)` is nonzero — whatever the soft-AP
overlap is, so the infrastructure test is performed before the soft-AP test
and this priority is part of the contract — and in particular whenever
`addr` lies on the local subnet and the masked local IP is nonzero;
otherwise it returns the soft-AP IP whenever `addr & (softAPIP & subnet)`
is nonzero; and it returns `0.0.0.0` exactly when `addr` has no bit overlap
with either masked interface address, a strictly weaker condition than
lying on neither subnet. -/
theorem interfaceAddress_overlap_rule (localIP softAPIP subnet addr : Nat) :
    (addr &&& (localIP &&& subnet) ≠ 0 →
      interfaceAddress localIP softAPIP subnet addr = localIP) ∧
    (addr &&& (localIP &&& subnet) = 0 → addr &&& (softAPIP &&& subnet) ≠ 0 →
      interfaceAddress localIP softAPIP subnet addr = softAPIP) ∧
    (specOnSubnet addr localIP subnet → localIP &&& subnet ≠ 0 →
      interfaceAddress localIP softAPIP subnet addr = localIP) ∧
    (interfaceAddress localIP softAPIP subnet addr = 0 ↔
      addr &&& (localIP &&& subnet) = 0 ∧ addr &&& (softAPIP &&& subnet) = 0) := by
  refine ⟨?_, ?_, ?_, ?_⟩
  · intro hl
    unfold interfaceAddress
    rw [if_pos hl]
  · intro hl0 hs
    unfold interfaceAddress
    rw [if_neg (fun hc => hc hl0), if_pos hs]
  · intro hsub hne
    have hkey : addr &&& (localIP &&& subnet) = localIP &&& subnet := by
      unfold specOnSubnet at hsub
      rw [← Nat.land_assoc, Nat.land_comm addr localIP, Nat.land_assoc, hsub,
        ← Nat.land_assoc]
      simp
    unfold interfaceAddress
    rw [if_pos (by rw [hkey]; exact hne)]
  · unfold interfaceAddress
    constructor
    · intro h
      by_cases hl : addr &&& (localIP &&& subnet) ≠ 0
      · rw [if_pos hl] at h
        subst h
        simp at hl
      · rw [if_neg hl] at h
        by_cases hs : addr &&& (softAPIP &&& subnet) ≠ 0
        · rw [if_pos hs] at h
          subst h
          simp at hs
        · simp at hl hs
          exact ⟨hl, hs⟩
    · intro ⟨hl, hs⟩
      rw [if_neg (by simp [hl]), if_neg (by simp [hs])]

/-- Witness for C9, exercising both return clauses: `192.168.1.7` overlaps
the masked infrastructure IP (it lies on its `192.168.1.0/24` subnet), so
the infrastructure IP is returned even though it also overlaps the masked
soft-AP IP; `4.0.0.0` has zero overlap with the masked infrastructure IP
but a nonzero overlap with the masked soft-AP IP `172.16.0.0`, so the
soft-AP IP is returned. -/
theorem interfaceAddress_overlap_rule_witness :
    ((0xC0A80107 : Nat) &&& (0xC0A80105 &&& 0xFFFFFF00) ≠ 0 ∧
      specOnSubnet 0xC0A80107 0xC0A80105 0xFFFFFF00 ∧
      (0xC0A80105 : Nat) &&& 0xFFFFFF00 ≠ 0 ∧
      interfaceAddress 0xC0A80105 0xAC100001 0xFFFFFF00 0xC0A80107 = 0xC0A80105) ∧
    ((0x04000000 : Nat) &&& (0xC0A80105 &&& 0xFFFFFF00) = 0 ∧
      (0x04000000 : Nat) &&& (0xAC100001 &&& 0xFFFFFF00) ≠ 0 ∧
      interfaceAddress 0xC0A80105 0xAC100001 0xFFFFFF00 0x04000000 = 0xAC100001) :=
  ⟨⟨by decide, by decide, by decide,
    (interfaceAddress_overlap_rule 0xC0A80105 0xAC100001 0xFFFFFF00 0xC0A80107).1
      (by decide)⟩,
    ⟨by decide, by decide,
      (interfaceAddress_overlap_rule 0xC0A80105 0xAC100001 0xFFFFFF00 0x04000000).2.1
        (by decide) (by decide)⟩⟩

/-! ## Dispatcher claims -/

theorem postAllResponseRoot_eq_treeNodes (r : RootDevice) :
    postAllResponseRoot r = treeNodes r := rfl

theorem treeNodes_length (r : RootDevice) :
    (treeNodes r).length =
      1 + r.services.length + (r.devices.map (fun d => 1 + d.services.length)).sum := by
  have hdev : ∀ (ds : List UPnPDevice),
      ((ds.map (fun d => RNode.dev d :: d.services.map RNode.svc)).map List.length).sum =
        (ds.map (fun d => 1 + d.services.length)).sum := by
    intro ds
    induction ds with
    | nil => rfl
    | cons d ds ih =>
      simp only [List.map_cons, List.sum_cons, ih, List.length_cons, List.length_map]
      omega
  simp only [treeNodes, List.length_cons, List.length_append, List.length_map,
    List.length_flatten, hdev]
  omega

/-- C3 (confirmed): a gated root search whose gate value begins with
`ssdp:all` dispatches `postAllResponse` on the root, which emits exactly
`1 + root.services + Σ (1 + embedded.services)` datagrams, in the order
root, root services, then each embedded device followed by its own
services, in registration order (`treeNodes`). -/
theorem rootdevice_all_search_responses (root : RootDevice)
    (getDev : List Char → Option DevRef) (pkt g : List Char)
    (h1 : isSearchRequest pkt = true)
    (h2 : headerValue ST_LSC_HEADER pkt 20 = some g)
    (h3 : SSDP_ALL.isPrefixOf g = true)
    (h4 : headerValue ST_HEADER pkt 100 = some ST_UPNP_ROOTDEVICE) :
    readChannel root getDev pkt =
      (true, PostAction.allResp (Sum.inl root) ST_UPNP_ROOTDEVICE) ∧
    dispatch root (readChannel root getDev pkt).2 = treeNodes root ∧
    (dispatch root (readChannel root getDev pkt).2).length =
      1 + root.services.length +
        (root.devices.map (fun d => 1 + d.services.length)).sum := by
  have hrc : readChannel root getDev pkt =
      (true, PostAction.allResp (Sum.inl root) ST_UPNP_ROOTDEVICE) := by
    unfold readChannel
    rw [if_pos h1, h2]
    dsimp only
    rw [h4]
    dsimp only
    rw [if_pos (by decide), if_pos h3]
  refine ⟨hrc, ?_, ?_⟩
  · rw [hrc]
    exact postAllResponseRoot_eq_treeNodes root
  · rw [hrc]
    show (postAllResponseRoot root).length = _
    rw [postAllResponseRoot_eq_treeNodes root, treeNodes_length]

/-- Witness for C3: spec §8 scenario 3 — tree root(R, svcs=[S1],
devs=[D1(svcs=[S2])]), gated `ssdp:all` root search: 4 responses in order
root, S1, D1, S2. -/
theorem rootdevice_all_search_responses_witness :
    isSearchRequest
      "M-SEARCH * HTTP/1.1\r\nST: upnp:rootdevice\r\nST.LEELANAUSOFTWARE.COM: ssdp:all\r\n\r\n".toList = true ∧
    headerValue ST_LSC_HEADER
      "M-SEARCH * HTTP/1.1\r\nST: upnp:rootdevice\r\nST.LEELANAUSOFTWARE.COM: ssdp:all\r\n\r\n".toList
      20 = some "ssdp:all".toList ∧
    SSDP_ALL.isPrefixOf "ssdp:all".toList = true ∧
    headerValue ST_HEADER
      "M-SEARCH * HTTP/1.1\r\nST: upnp:rootdevice\r\nST.LEELANAUSOFTWARE.COM: ssdp:all\r\n\r\n".toList
      100 = some ST_UPNP_ROOTDEVICE ∧
    dispatch ⟨"urn:x:device:R:1".toList, [⟨"urn:x:service:S1:1".toList⟩],
        [⟨"urn:x:device:D1:1".toList, [⟨"urn:x:service:S2:1".toList⟩]⟩]⟩
      (readChannel ⟨"urn:x:device:R:1".toList, [⟨"urn:x:service:S1:1".toList⟩],
          [⟨"urn:x:device:D1:1".toList, [⟨"urn:x:service:S2:1".toList⟩]⟩]⟩
        (fun _ => none)
        "M-SEARCH * HTTP/1.1\r\nST: upnp:rootdevice\r\nST.LEELANAUSOFTWARE.COM: ssdp:all\r\n\r\n".toList).2 =
      [RNode.root ⟨"urn:x:device:R:1".toList, [⟨"urn:x:service:S1:1".toList⟩],
          [⟨"urn:x:device:D1:1".toList, [⟨"urn:x:service:S2:1".toList⟩]⟩]⟩,
        RNode.svc ⟨"urn:x:service:S1:1".toList⟩,
        RNode.dev ⟨"urn:x:device:D1:1".toList, [⟨"urn:x:service:S2:1".toList⟩]⟩,
        RNode.svc ⟨"urn:x:service:S2:1".toList⟩] :=
  ⟨by decide, by decide, by decide, by decide, by
    rw [(rootdevice_all_search_responses _ (fun _ => none) _ "ssdp:all".toList
      (by decide) (by decide) (by decide) (by decide)).2.1]
    decide⟩

theorem urn_excludes_other_targets (st : List Char)
    (h : ST_TYPE.isPrefixOf st = true) :
    ST_UPNP_ROOTDEVICE.isPrefixOf st = false ∧ ST_UUID.isPrefixOf st = false := by
  rw [List.isPrefixOf_iff_prefix] at h
  obtain ⟨t, rfl⟩ := h
  exact ⟨rfl, rfl⟩

theorem postAllMatchingDev_eq_filter (st : List Char) (d : UPnPDevice) :
    postAllMatchingDev st d =
      (RNode.dev d :: d.services.map RNode.svc).filter (fun n => nodeType n == st) := by
  unfold postAllMatchingDev
  rw [List.filter_cons]
  simp only [nodeType, List.filter_map, Function.comp_def]
  by_cases hd : (d.dtype == st) = true
  · simp [hd]
  · simp [hd]

theorem postAllMatchingRoot_eq_filter (st : List Char) (r : RootDevice) :
    postAllMatchingRoot st r = (treeNodes r).filter (fun n => nodeType n == st) := by
  have hdev : (r.devices.map (fun d => RNode.dev d :: d.services.map RNode.svc)).map
        (List.filter (fun n => nodeType n == st)) =
      r.devices.map (postAllMatchingDev st) := by
    rw [List.map_map]
    refine List.map_congr_left (fun d _ => ?_)
    simpa [Function.comp] using (postAllMatchingDev_eq_filter st d).symm
  unfold treeNodes
  rw [List.filter_cons, List.filter_append, List.filter_flatten, hdev, List.filter_map]
  unfold postAllMatchingRoot
  simp only [nodeType, Function.comp_def]
  by_cases hd : (r.dtype == st) = true
  · simp [hd, List.append_assoc]
  · simp [hd, List.append_assoc]

/-- C4 (confirmed): a gated type search (`ST` beginning with `urn:`) always
installs `postAllMatching`, which walks the whole tree in tree order and
emits one response per node whose type string equals the `ST` byte-for-byte;
the gate value `g` is arbitrary here and absent from the result, so the
response count is the same whether or not the gate says `ssdp:all`. -/
theorem type_search_responses (root : RootDevice)
    (getDev : List Char → Option DevRef) (pkt g st : List Char)
    (h1 : isSearchRequest pkt = true)
    (h2 : headerValue ST_LSC_HEADER pkt 20 = some g)
    (h4 : headerValue ST_HEADER pkt 100 = some st)
    (h5 : ST_TYPE.isPrefixOf st = true) :
    readChannel root getDev pkt = (true, PostAction.allMatch st) ∧
    dispatch root (readChannel root getDev pkt).2 =
      (treeNodes root).filter (fun n => nodeType n == st) := by
  obtain ⟨hroot, huuid⟩ := urn_excludes_other_targets st h5
  have hrc : readChannel root getDev pkt = (true, PostAction.allMatch st) := by
    unfold readChannel
    rw [if_pos h1, h2]
    dsimp only
    rw [h4]
    dsimp only
    rw [if_neg (by simp [hroot]), if_neg (by simp [huuid]), if_pos h5]
  refine ⟨hrc, ?_⟩
  rw [hrc]
  exact postAllMatchingRoot_eq_filter st root

/-- Witness for C4: spec §8 scenario 5 — two embedded devices of type
`urn:x-com:device:Clock:1`; the gated type search yields exactly those two
device responses, in tree order, with a `ssdp:all` gate value present but
without effect. -/
theorem type_search_responses_witness :
    isSearchRequest
      "M-SEARCH * HTTP/1.1\r\nST: urn:x-com:device:Clock:1\r\nST.LEELANAUSOFTWARE.COM: ssdp:all\r\n\r\n".toList = true ∧
    headerValue ST_LSC_HEADER
      "M-SEARCH * HTTP/1.1\r\nST: urn:x-com:device:Clock:1\r\nST.LEELANAUSOFTWARE.COM: ssdp:all\r\n\r\n".toList
      20 = some "ssdp:all".toList ∧
    headerValue ST_HEADER
      "M-SEARCH * HTTP/1.1\r\nST: urn:x-com:device:Clock:1\r\nST.LEELANAUSOFTWARE.COM: ssdp:all\r\n\r\n".toList
      100 = some "urn:x-com:device:Clock:1".toList ∧
    ST_TYPE.isPrefixOf "urn:x-com:device:Clock:1".toList = true ∧
    dispatch ⟨"urn:x:device:R:1".toList, [],
        [⟨"urn:x-com:device:Clock:1".toList, []⟩, ⟨"urn:x-com:device:Clock:1".toList, []⟩]⟩
      (readChannel ⟨"urn:x:device:R:1".toList, [],
          [⟨"urn:x-com:device:Clock:1".toList, []⟩, ⟨"urn:x-com:device:Clock:1".toList, []⟩]⟩
        (fun _ => none)
        "M-SEARCH * HTTP/1.1\r\nST: urn:x-com:device:Clock:1\r\nST.LEELANAUSOFTWARE.COM: ssdp:all\r\n\r\n".toList).2 =
      [RNode.dev ⟨"urn:x-com:device:Clock:1".toList, []⟩,
        RNode.dev ⟨"urn:x-com:device:Clock:1".toList, []⟩] :=
  ⟨by decide, by decide, by decide, by decide, by
    rw [(type_search_responses _ (fun _ => none) _ "ssdp:all".toList
      "urn:x-com:device:Clock:1".toList
      (by decide) (by decide) (by decide) (by decide)).2]
    decide⟩

end Lsc
